import Mathlib

/-!
Verification of the MedAI medical-leaflet assistant against its
natural-language specification.

The repository ships the React frontend (upload screen, chat screen, message
and citation rendering).  The FastAPI backend that implements the
retrieval-augmented answer pipeline (content hashing, chunking, vector index,
retrieval orchestration, answer synthesis, citation validation) is not part of
the checked-in sources; the definitions for that pipeline below are marked
`Modelled from the spec:` and follow the specification text.

Frontend code is embedded directly: JavaScript values are modelled by the
inductive `Js`, React component state by explicit state records, and event
handlers by pure state-transition functions.
-/

namespace MedAI

/-! A model of JavaScript values.

`parseError` in `Chat.jsx` and `UploadScreen.jsx` operates on an arbitrary
JSON response body (possibly `null`/`undefined`), so we model JavaScript
values explicitly: truthiness, optional-chain property access and the
`String(...)` conversion. -/

inductive Js where
  | undefined
  | null
  | bool (b : Bool)
  | num (n : Int)
  | str (s : String)
  | arrNil
  | arrCons (head tail : Js)
  | objNil
  | objCons (key : String) (val rest : Js)
deriving Repr, DecidableEq

/-- The JSON array `[a, b, ...]` is written `arrCons a (arrCons b ...)` ending
in `arrNil`, and the JSON object with its field list likewise with
`objCons`/`objNil`; this first-order spine encoding keeps every function on
`Js` structurally recursive. -/
def Js.arr1 (a : Js) : Js := .arrCons a .arrNil

/-- JavaScript truthiness: `undefined`, `null`, `false`, `0` and `""` are
falsy; every other value (including empty arrays and objects) is truthy. -/
def Js.truthy : Js → Bool
  | .undefined => false
  | .null => false
  | .bool b => b
  | .num n => n != 0
  | .str s => s != ""
  | .arrNil => true
  | .arrCons _ _ => true
  | .objNil => true
  | .objCons _ _ _ => true

/-- Optional-chain property access `v?.key`: `undefined` on `null`/`undefined`
receivers, first-match field lookup on objects (parsed JSON has unique
keys), `undefined` on every other value (no prototype properties are
modelled). -/
def Js.get : Js → String → Js
  | .objCons key val rest, k => if key == k then val else Js.get rest k
  | _, _ => .undefined

/-- The JavaScript `String(v)` conversion restricted to the values above:
`"undefined"`, `"null"`, `"true"`/`"false"`, decimal numerals, the string
itself, `Array.prototype.join` with `","` over an array (where
`null`/`undefined` elements render empty and other elements are stringified
recursively), and `"[object Object]"` for plain objects. -/
def Js.toStr : Js → String
  | .undefined => "undefined"
  | .null => "null"
  | .bool true => "true"
  | .bool false => "false"
  | .num n => toString n
  | .str s => s
  | .objNil => "[object Object]"
  | .objCons _ _ _ => "[object Object]"
  | .arrNil => ""
  | .arrCons h t =>
    (match h with
      | .undefined => ""
      | .null => ""
      | h => Js.toStr h)
    ++ (match t with
      | .arrNil => ""
      | t => "," ++ Js.toStr t)

/-- Holds (as `true`) exactly for a string value of positive length. -/
def Js.isNonEmptyStr : Js → Bool
  | .str s => s != ""
  | _ => false

/-! The function `parseError` (`src/unnamed/part_005` lines 11-15 and
`src/unnamed/part_001` lines 4-8)

```js
const parseError = (data) => {
  if (data?.user_message) return data.user_message;
  if (data?.detail)       return String(data.detail);
  return "An unexpected error occurred.";
};
```
The two copies are textually identical; we embed the function once. -/

def parseError (data : Js) : Js :=
  if (data.get "user_message").truthy then data.get "user_message"
  else if (data.get "detail").truthy then .str (data.get "detail").toStr
  else .str "An unexpected error occurred."

/-! Text direction helpers (`Message.jsx` lines 4-5 and `Citation.jsx` lines 4-5)

```js
const getDir = (text = "") =>
  /[֐-׿؀-ۿ]/.test(text) ? "rtl" : "ltr";
```

The regex character class covers two BMP ranges, so UTF-16 code-unit
matching coincides with code-point matching (surrogate halves of non-BMP
characters lie in U+D800-U+DFFF, outside both ranges); we therefore model
strings as their code-point lists. -/

namespace MessageView

/-- The `getDir` helper as defined in `Message.jsx`. -/
def getDir (text : String) : String :=
  if text.toList.any (fun c =>
      (0x590 ≤ c.toNat && c.toNat ≤ 0x5ff) || (0x600 ≤ c.toNat && c.toNat ≤ 0x6ff))
  then "rtl" else "ltr"

end MessageView

namespace CitationView

/-- The `getDir` helper as defined in `Citation.jsx` (textually identical to the copy in
`Message.jsx`). -/
def getDir (text : String) : String :=
  if text.toList.any (fun c =>
      (0x590 ≤ c.toNat && c.toNat ≤ 0x5ff) || (0x600 ≤ c.toNat && c.toNat ≤ 0x6ff))
  then "rtl" else "ltr"

end CitationView

/-! Upload screen (`src/unnamed/part_001`, `UploadScreen`)

`handleFile` synchronously guards on the file argument before touching any
state or issuing the `POST /chats` request:

```js
const handleFile = async (file) => {
  if (!file || file.type !== "application/pdf") return;
  setError(null);
  setUploading(true);
  try { ... fetch(`${API}/chats`, { method: "POST", body: form }); ... }
};
```

We model the synchronous prefix up to the point where the network request is
issued; the boolean result records whether a request was issued. -/

structure JsFile where
  type : String
deriving Repr, DecidableEq

structure UploadState where
  uploading : Bool
  dragOver : Bool
  error : Option String
deriving Repr, DecidableEq

/-- The guarded prefix of `handleFile`: on a missing file or a non-PDF MIME
type it returns before any `setState` call or network request. -/
def handleFile (s : UploadState) (file : Option JsFile) : UploadState × Bool :=
  match file with
  | none => (s, false)
  | some f =>
    if f.type != "application/pdf" then (s, false)
    else ({ s with error := none, uploading := true }, true)

/-! Chat screen (`src/unnamed/part_005`, the `Chat` component, and
`ChatInput.jsx`).

`handleSend` has a synchronous prefix that guards and optimistically appends
the user message, and an asynchronous continuation that applies the server's
response:

```js
const handleSend = async () => {
  if (!input.trim() || !chatId || loading) return;
  const question = input;
  setError(null);
  setMessages((prev) => [...prev, { role: "user", content: question, citations: [] }]);
  setInput("");
  setLoading(true);
  try {
    const res = await fetch(...);
    const data = await res.json();
    if (!res.ok) { setError(parseError(data)); setMessages((prev) => prev.slice(0, -1)); return; }
    setMessages((prev) => [...prev, { role: "assistant", content: data.answer, citations: data.citations || [] }]);
  } catch {
    setError("Could not reach the backend. Is it running?");
    setMessages((prev) => prev.slice(0, -1));
  } finally { setLoading(false); }
};
```

We model the component state explicitly, with a `pending` field recording the
question of the in-flight request (the suspended continuation), and split
`handleSend` into `handleSendStart` (the synchronous prefix) and
`handleSendResolve` (the continuation applied when the fetch settles). -/

/-- The frontend citation record `\x7btext, page, section?\x7d` as consumed by
`Citation.jsx` (`citation.text`, `citation.page`, `citation.section`).  The
field `section` is a Lean keyword, so it is named `sectionLabel` here. -/
structure Citation where
  text : String
  page : Nat
  sectionLabel : Option String
deriving Repr, DecidableEq

/-- One entry of the `messages` React state:
`\x7brole, content, citations\x7d`. -/
structure ChatMsg where
  role : String
  content : String
  citations : List Citation
deriving Repr, DecidableEq

/-- The `Chat` component state relevant to sending: `chatId`, `input`,
`messages`, `loading`, `error`, plus `pending` for the in-flight request. -/
structure ChatState where
  chatId : Option String
  input : String
  messages : List ChatMsg
  loading : Bool
  error : Option Js
  pending : Option String

/-- JavaScript `String.prototype.trim()` over the code-point list (kept
kernel-reducible, unlike `String.trim`). -/
def jsTrim (s : String) : String :=
  String.mk (((s.toList.dropWhile Char.isWhitespace).reverse.dropWhile
    Char.isWhitespace).reverse)

/-- Truthiness of the `chatId` state (`null` and the empty string are falsy). -/
def chatIdTruthy : Option String → Bool
  | none => false
  | some s => s != ""

/-- The message appended optimistically by `handleSend`. -/
def userMsg (q : String) : ChatMsg :=
  { role := "user", content := q, citations := [] }

/-- The synchronous prefix of `handleSend`: the
`!input.trim() || !chatId || loading` guard returns without effect;
otherwise the error is cleared, the user message is appended, the input is
cleared, `loading` is set and the request for `question = input` goes
in flight. -/
def handleSendStart (s : ChatState) : ChatState :=
  if jsTrim s.input == "" || !chatIdTruthy s.chatId || s.loading then s
  else
    { s with
      error := none
      messages := s.messages ++ [userMsg s.input]
      input := ""
      loading := true
      pending := some s.input }

/-- How the awaited fetch settles: an ok response with parsed body, a non-ok
HTTP response with its body, or a network failure (the `catch` path). -/
inductive AskResponse where
  | ok (answer : String) (citations : List Citation)
  | httpError (body : Js)
  | networkError

/-- The continuation of `handleSend` after the fetch settles: on success the
assistant message is appended; on a non-ok response the error is set to
`parseError(data)` and the optimistic user message is removed
(`prev.slice(0, -1)`); on a network failure likewise with a fixed message.
`finally` clears `loading` on every path. -/
def handleSendResolve (s : ChatState) (r : AskResponse) : ChatState :=
  match r with
  | .ok answer citations =>
    { s with
      messages := s.messages ++ [{ role := "assistant", content := answer, citations := citations }]
      loading := false
      pending := none }
  | .httpError body =>
    { s with
      error := some (parseError body)
      messages := s.messages.dropLast
      loading := false
      pending := none }
  | .networkError =>
    { s with
      error := some (.str "Could not reach the backend. Is it running?")
      messages := s.messages.dropLast
      loading := false
      pending := none }

/-- The `disabled` expression of the send button in `ChatInput.jsx`:
`disabled=\x7b!input.trim() || loading\x7d`. -/
def sendDisabled (input : String) (loading : Bool) : Bool :=
  jsTrim input == "" || loading

/-- Client events during a conversation: typing (the input element carries
`disabled=\x7bloading\x7d`, so typing is ignored while loading), pressing
send, and an in-flight request settling (ignored when nothing is in
flight). -/
inductive ChatEvent where
  | setInput (t : String)
  | send
  | resolve (r : AskResponse)

/-- One client event applied to the chat state. -/
def chatStep (s : ChatState) (e : ChatEvent) : ChatState :=
  match e with
  | .setInput t => if s.loading then s else { s with input := t }
  | .send => handleSendStart s
  | .resolve r => if s.pending.isSome then handleSendResolve s r else s

/-- A whole client trace applied to the chat state. -/
def runChat (s : ChatState) (es : List ChatEvent) : ChatState :=
  es.foldl chatStep s

/-- The chat state right after a fresh upload created chat `id`. -/
def initChatState (id : String) : ChatState :=
  { chatId := some id, input := "", messages := [], loading := false,
    error := none, pending := none }

/-- Checks that a message list is a sequence of user/assistant pairs in
question order: every user question is immediately followed by its
assistant answer. -/
def paired : List ChatMsg → Bool
  | [] => true
  | [_] => false
  | u :: a :: rest => u.role == "user" && a.role == "assistant" && paired rest

/-- The in-flight invariant of the chat screen: when no request is loading
the history is complete question/answer pairs in issue order; while one
request is in flight the history is such pairs followed by exactly the one
pending user question. -/
def orderly (s : ChatState) : Prop :=
  (s.loading = false ∧ s.pending = none ∧ paired s.messages = true)
  ∨ (∃ q m, s.loading = true ∧ s.pending = some q ∧ paired m = true
      ∧ s.messages = m ++ [userMsg q])

/-! The backend core.  The FastAPI services (`pdf_service`, `chat_service`,
`chroma_service`) are not among the checked-in sources — only their frontend
callers are — so the pipeline below is modelled from the specification
(sections 3, 4 and 6) and every modelled definition says so in its doc
comment.  String manipulation is done over code-point lists to keep every
definition kernel-reducible. -/

/-- ASCII lower-casing of one character (the case-insensitivity the spec
asks of the keyword fallback). -/
def charLower (c : Char) : Char :=
  if 'A' ≤ c && c ≤ 'Z' then Char.ofNat (c.toNat + 32) else c

/-- ASCII lower-casing of a string (Hebrew characters are caseless). -/
def lowerStr (s : String) : String :=
  String.mk (s.toList.map charLower)

/-- Decides whether `pre` is a leading segment of `l` (character lists). -/
def startsWithChars : List Char → List Char → Bool
  | [], _ => true
  | _ :: _, [] => false
  | a :: as, b :: bs => a == b && startsWithChars as bs

/-- Decides whether `needle` occurs contiguously inside `hay` (character
lists); this is the "exact substring" check of the spec. -/
def subChars (needle hay : List Char) : Bool :=
  match hay with
  | [] => needle.isEmpty
  | _ :: rest => startsWithChars needle hay || subChars needle rest

/-- Decides whether string `needle` is an exact substring of string `hay`. -/
def containsSub (hay needle : String) : Bool :=
  subChars needle.toList hay.toList

/-- Modelled from the spec: the Content Hasher (section 4.1, a SHA-256
digest in the backend `pdf_service`, not under `src/`).  What the claims
use is that it is a deterministic function of the raw bytes, so it is
modelled as a deterministic fold over the bytes. -/
def contentHash (bytes : List Nat) : Nat :=
  bytes.foldl (fun h b => h * 257 + b % 256 + 1) 7

/-- A chunk as in the data model (section 3): deterministic sequential id,
verbatim text, first page of origin.  The embedding vector lives in the
external index and does not appear in the claims. -/
structure Chunk where
  id : Nat
  text : String
  page : Nat
deriving Repr, DecidableEq

/-- Persisted document metadata (section 3). -/
structure DocMeta where
  hashVal : Nat
  pageCount : Nat
deriving Repr, DecidableEq

/-- Modelled from the spec: the storage collaborators (section 6) — document
metadata keyed by content hash, and the vector index as entries keyed by
namespace, where a namespace equals a document's content hash
(section 4.3). -/
structure Store where
  docs : List (Nat × DocMeta)
  index : List (Nat × Chunk)

/-- The chunks of one document's namespace, in index order. -/
def Store.chunksOf (st : Store) (ns : Nat) : List Chunk :=
  (st.index.filter (fun e => e.fst == ns)).map Prod.snd

/-- Insert-or-replace of document metadata under its content hash. -/
def setDoc (docs : List (Nat × DocMeta)) (h : Nat) (d : DocMeta) :
    List (Nat × DocMeta) :=
  docs.filter (fun e => e.fst != h) ++ [(h, d)]

/-- Modelled from the spec: `extract_pages` (section 6: the PDF parsing
collaborator yields per-page text).  Bytes are taken as character codes with
byte `0` as the page separator. -/
def extractPagesChars (bytes : List Nat) : List (List Char) :=
  (bytes.splitOn 0).map (fun page => page.map Char.ofNat)

/-- Modelled from the spec (section 4.2): the chunking window length in
characters. -/
def windowLen : Nat := 300

/-- Modelled from the spec (section 4.2): window advance, i.e. window length
minus the fixed overlap. -/
def strideLen : Nat := 250

/-- Modelled from the spec (section 4.2): how many windows tile a
`len`-character stream — a document with fewer characters than one window
yields exactly one chunk. -/
def nChunks (len : Nat) : Nat :=
  if len = 0 then 0 else (len - min len windowLen + strideLen - 1) / strideLen + 1

/-- Modelled from the spec (section 4.2): the page containing a character
offset of the concatenated stream, given the per-page character counts
(pages are numbered from 1). -/
def pageOfOffset : List Nat → Nat → Nat
  | [], _ => 1
  | l :: rest, off => if off < l then 1 else 1 + pageOfOffset rest (off - l)

/-- Modelled from the spec (section 4.2): the ordered chunk sequence of one
document — a window of `windowLen` characters slid by `strideLen` over the
concatenated page texts, each chunk carrying its sequence index as id and
the page of its starting offset. -/
def chunksFor (pages : List (List Char)) : List Chunk :=
  let full := pages.flatten
  (List.range (nChunks full.length)).map (fun i =>
    { id := i
      text := String.mk ((full.drop (i * strideLen)).take windowLen)
      page := pageOfOffset (pages.map List.length) (i * strideLen) })

/-- Ingestion failures (section 7): no extractable text. -/
inductive IngestError where
  | extractionError
deriving Repr, DecidableEq

/-- What `ingest` returns to its caller (section 6). -/
structure IngestResult where
  document_id : Nat
  page_count : Nat
  chunk_count : Nat
  greeting_text : String
deriving Repr, DecidableEq

/-- Modelled from the spec: the fixed greeting text returned by ingestion. -/
def ingestGreeting : String :=
  "Hi! Ask me anything about this leaflet."

/-- The store after a first-time ingestion: document metadata written under
the content hash, the chunks appended into the hash's namespace. -/
def freshStore (st : Store) (h : Nat) (pages : List (List Char))
    (chunks : List Chunk) : Store :=
  { docs := setDoc st.docs h { hashVal := h, pageCount := pages.length }
    index := st.index ++ chunks.map (fun c => (h, c)) }

/-- The result of a first-time ingestion. -/
def freshResult (h : Nat) (pages : List (List Char)) (chunks : List Chunk) :
    IngestResult :=
  { document_id := h
    page_count := pages.length
    chunk_count := chunks.length
    greeting_text := ingestGreeting }

/-- The result of the idempotent no-op path: the existing chunk set and
document metadata, returned unchanged. -/
def noopResult (st : Store) (h : Nat) : IngestResult :=
  { document_id := h
    page_count := match st.docs.lookup h with
      | some d => d.pageCount
      | none => 0
    chunk_count := (st.chunksOf h).length
    greeting_text := ingestGreeting }

/-- Modelled from the spec (sections 4.1, 4.2, 4.3 and 6): content-addressed
ingestion.  The content hash is the idempotency key: when the document
already has chunks indexed, the existing chunk set and metadata are returned
unchanged and nothing is written.  Otherwise pages are extracted (failing
when no page has a non-whitespace character), chunked over the concatenated
stream, and the chunks are written into the document's namespace.  The
namespace is empty on this path, so the batch write equals per-chunk
idempotent upserts. -/
def ingest (st : Store) (bytes : List Nat) :
    Except IngestError (Store × IngestResult) :=
  let h := contentHash bytes
  if (st.chunksOf h).isEmpty then
    let pages := extractPagesChars bytes
    if pages.flatten.all Char.isWhitespace then
      .error .extractionError
    else
      .ok (freshStore st h pages (chunksFor pages),
        freshResult h pages (chunksFor pages))
  else
    .ok (st, noopResult st h)

/-! The question-time pipeline (sections 4.4 to 4.7), modelled from the
spec.  The embedding model and the language model are external and
unreliable, so both enter as an `Oracle` parameter that the theorems
quantify over. -/

/-- Modelled from the spec (section 4.4 step 1): the small set of greeting
phrases in either supported language. -/
def greetingPhrases : List String :=
  ["hi", "hello", "hey", "good morning", "shalom", "שלום", "הי", "היי"]

/-- Modelled from the spec (section 4.4 step 1): the lightweight greeting
classifier — a pattern match of the normalized question against the
greeting phrases. -/
def isGreeting (q : String) : Bool :=
  greetingPhrases.contains (lowerStr (jsTrim q))

/-- Modelled from the spec (section 4.4 step 2): interrogative/question
words stripped from the second query variant, in both languages. -/
def questionWords : List String :=
  ["what", "how", "why", "when", "where", "which", "who", "is", "are", "does",
   "מה", "איך", "למה", "מתי", "איפה", "האם", "כיצד", "מדוע"]

/-- Splits a question into whitespace-separated words. -/
def wordsOf (s : String) : List String :=
  ((s.toList.splitOn ' ').filter (fun w => !w.isEmpty)).map String.mk

/-- Modelled from the spec (section 4.4 step 2): the question with
interrogative tokens stripped. -/
def stripQuestionWords (q : String) : String :=
  String.intercalate " "
    ((wordsOf q).filter (fun w => !questionWords.contains (lowerStr w)))

/-- Modelled from the spec (section 4.4 step 2): the literal question plus
the stripped variant. -/
def queryVariants (q : String) : List String :=
  [q, stripQuestionWords q]

/-- The raw language-model output after structural parsing (section 4.6): a
malformed output, or an answer segment with its citation entries. -/
inductive LMOutput where
  | malformed
  | answer (text : String) (citations : List Citation)

/-- Modelled from the spec (sections 4.3 and 4.6): the external services the
pipeline calls — an embedding-similarity scoring of a query variant against
a chunk text, and the language model mapping a prompt to raw output.  Both
are arbitrary: the theorems hold for every oracle. -/
structure Oracle where
  score : String → String → Nat
  llm : String → LMOutput

/-- Inserts a chunk into a list kept sorted by descending score. -/
def insertRanked (score : Chunk → Nat) (c : Chunk) : List Chunk → List Chunk
  | [] => [c]
  | x :: xs =>
    if score x ≤ score c then c :: x :: xs else x :: insertRanked score c xs

/-- Sorts chunks by descending score (a deterministic insertion sort, ties
broken by stable original order as the spec's determinism note asks). -/
def rankChunks (score : Chunk → Nat) : List Chunk → List Chunk
  | [] => []
  | x :: xs => insertRanked score x (rankChunks score xs)

/-- Modelled from the spec (section 4.4 step 3): `top_k` of the semantic
queries and of the final merged candidate set. -/
def topK : Nat := 8

/-- Modelled from the spec (sections 4.3 and 4.4 step 3): one vector-index
query — the namespace's chunks ranked by the oracle's similarity score for
the variant, truncated to the top `topK`.  The result is drawn from the
given namespace chunks only. -/
def semanticQuery (oracle : Oracle) (chunks : List Chunk) (variant : String) :
    List Chunk :=
  (rankChunks (fun c => oracle.score variant c.text) chunks).take topK

/-- Modelled from the spec (section 4.4 step 4): minimum length of a salient
term. -/
def minTermLen : Nat := 4

/-- Modelled from the spec (section 4.4 step 4): salient terms of the
question — words of at least `minTermLen` characters that are not question
words. -/
def salientTerms (q : String) : List String :=
  (wordsOf q).filter (fun w =>
    minTermLen ≤ w.toList.length && !questionWords.contains (lowerStr w))

/-- Modelled from the spec (section 4.4 step 4): the keyword fallback — a
scan of all chunks of the namespace for case-insensitive exact substring
matches of the salient terms. -/
def keywordScan (chunks : List Chunk) (q : String) : List Chunk :=
  chunks.filter (fun c =>
    (salientTerms q).any (fun t => containsSub (lowerStr c.text) (lowerStr t)))

/-- Deduplicates candidates by chunk id, keeping the first (highest-ranked)
occurrence; `seen` accumulates the chunk ids already emitted. -/
def dedupByIdAux (seen : List Nat) : List Chunk → List Chunk
  | [] => []
  | c :: rest =>
    if seen.contains c.id then dedupByIdAux seen rest
    else c :: dedupByIdAux (c.id :: seen) rest

/-- Deduplicates candidates by chunk id, keeping the first (highest-ranked)
occurrence. -/
def dedupById (l : List Chunk) : List Chunk := dedupByIdAux [] l

/-- Modelled from the spec (section 4.4 step 5, with the exact ranking rule
left open by design note 9): all candidates of steps 3 and 4 merged,
deduplicated by chunk id and truncated to the final top `topK`. -/
def mergeCandidates (semantic : List (List Chunk)) (keyword : List Chunk) :
    List Chunk :=
  (dedupById (semantic.flatten ++ keyword)).take topK

/-- Modelled from the spec (section 4.5): the grounding-constrained prompt —
system instruction block, ranked chunk texts with page labels, recent
history, question. -/
def buildPrompt (candidates : List Chunk) (history : List (String × String))
    (question : String) : String :=
  "Answer only from the excerpts below; no outside knowledge; " ++
  "wrap the output in an answer section and a citations section." ++
  String.intercalate ""
    (candidates.map (fun c => " [page " ++ toString c.page ++ "] " ++ c.text)) ++
  String.intercalate ""
    (history.map (fun t => " " ++ t.fst ++ ": " ++ t.snd)) ++
  " question: " ++ question

/-- Modelled from the spec (section 4.6): the stricter format reminder
appended for the single retry after a malformed output. -/
def strictReminder : String :=
  " Reminder: the output must contain the mandatory answer section."

/-- Question-time failures (section 7). -/
inductive AskError where
  | malformedOutput
  | groundingFailure
deriving Repr, DecidableEq

/-- What `ask` returns to its caller (section 6):
`\x7banswer_text, citations[], is_greeting\x7d`. -/
structure AskResult where
  answer_text : String
  citations : List Citation
  is_greeting : Bool
deriving Repr, DecidableEq

/-- Modelled from the spec (section 4.4 step 1): the fixed warm response of
the greeting path. -/
def greetingReply : String :=
  "Hello! How can I help you with this leaflet?"

/-- Modelled from the spec (section 4.7): the Citation Validator — every
parsed citation whose text is not an exact substring of a retrieved
candidate chunk's text is dropped from the response. -/
def validateCitations (candidates : List Chunk) (parsed : List Citation) :
    List Citation :=
  parsed.filter (fun c =>
    candidates.any (fun ch => containsSub ch.text c.text))

/-- Modelled from the spec (section 4.4 steps 2 to 5): the retrieval
orchestration for one question against one namespace — each query variant
issues one semantic vector-index query, the keyword fallback scans the
namespace, and the results are merged. -/
def retrieveCandidates (oracle : Oracle) (chunks : List Chunk)
    (question : String) : List Chunk :=
  mergeCandidates ((queryVariants question).map (semanticQuery oracle chunks))
    (keywordScan chunks question)

/-- Modelled from the spec (sections 4.5 to 4.7): prompt building, the
language-model call with one stricter retry on malformed output, and
citation validation over the candidate set. -/
def synthesize (oracle : Oracle) (candidates : List Chunk)
    (history : List (String × String)) (question : String) :
    Except AskError AskResult :=
  let prompt := buildPrompt candidates history question
  match oracle.llm prompt with
  | .answer t cits =>
    .ok { answer_text := t, citations := validateCitations candidates cits,
          is_greeting := false }
  | .malformed =>
    match oracle.llm (prompt ++ strictReminder) with
    | .answer t cits =>
      .ok { answer_text := t, citations := validateCitations candidates cits,
            is_greeting := false }
    | .malformed => .error .malformedOutput

/-- Modelled from the spec (sections 4.4 to 4.7): the question-time
pipeline.  A greeting short-circuits with no retrieval; otherwise the
candidates are retrieved from the document's namespace (one vector-index
query per variant), an empty candidate set is the explicit grounding
failure, and synthesis plus citation validation produce the answer.
Besides the result, the number of vector-index queries issued is
returned. -/
def ask (oracle : Oracle) (st : Store) (docId : Nat) (question : String)
    (history : List (String × String)) :
    Except AskError (AskResult × Nat) :=
  if isGreeting question then
    .ok ({ answer_text := greetingReply, citations := [], is_greeting := true }, 0)
  else if (retrieveCandidates oracle (st.chunksOf docId) question).isEmpty then
    .error .groundingFailure
  else
    match synthesize oracle (retrieveCandidates oracle (st.chunksOf docId) question)
        history question with
    | .ok r => .ok (r, (queryVariants question).length)
    | .error e => .error e

/-! Theorems.  Each claim of the specification gets one theorem below,
preceded by supporting lemmas where needed. -/

/-- The character predicate of the `getDir` regex, as a proposition. -/
def rtlChar (c : Char) : Prop :=
  (0x590 ≤ c.toNat ∧ c.toNat ≤ 0x5ff) ∨ (0x600 ≤ c.toNat ∧ c.toNat ≤ 0x6ff)

theorem any_rtl_iff (t : String) :
    (t.toList.any (fun c =>
      (0x590 ≤ c.toNat && c.toNat ≤ 0x5ff) || (0x600 ≤ c.toNat && c.toNat ≤ 0x6ff))
      = true)
    ↔ ∃ c ∈ t.toList, rtlChar c := by
  simp [List.any_eq_true, Bool.or_eq_true, Bool.and_eq_true, decide_eq_true_eq,
    rtlChar]

/-- C10: for every message text and citation text, the rendering direction
computed by `getDir` is `"rtl"` exactly when the string contains a character
in U+0590-U+05FF or U+0600-U+06FF, and `"ltr"` otherwise (including for the
empty string, the value of the omitted default argument); `Message.jsx` and
`Citation.jsx` compute the same direction function. -/
theorem getDir_rtl_iff :
    (∀ t : String,
      (MessageView.getDir t = "rtl" ↔ ∃ c ∈ t.toList, rtlChar c)
      ∧ (MessageView.getDir t = "ltr" ↔ ¬∃ c ∈ t.toList, rtlChar c))
    ∧ MessageView.getDir "" = "ltr"
    ∧ MessageView.getDir = CitationView.getDir := by
  refine ⟨fun t => ?_, rfl, rfl⟩
  unfold MessageView.getDir
  by_cases h : (t.toList.any (fun c =>
      (0x590 ≤ c.toNat && c.toNat ≤ 0x5ff) || (0x600 ≤ c.toNat && c.toNat ≤ 0x6ff))
      = true)
  · rw [if_pos h]
    constructor
    · exact ⟨fun _ => (any_rtl_iff t).mp h, fun _ => rfl⟩
    · constructor
      · intro hlt; exact absurd hlt (by decide)
      · intro hn; exact absurd ((any_rtl_iff t).mp h) hn
  · rw [if_neg h]
    constructor
    · constructor
      · intro hlt; exact absurd hlt (by decide)
      · intro hex; exact absurd ((any_rtl_iff t).mpr hex) h
    · exact ⟨fun _ => fun hex => h ((any_rtl_iff t).mpr hex), fun _ => rfl⟩

/-- C6 counterexample: the body `\x7b"detail": []\x7d` is a well-formed JSON
error body, yet `parseError` returns the empty string on it (the empty
array is truthy and `String([])` is `""`), refuting "returns a non-empty
string" for every body. -/
theorem parseError_empty_on_array_detail :
    parseError (Js.objCons "detail" Js.arrNil Js.objNil) = Js.str ""
    ∧ Js.isNonEmptyStr (parseError (Js.objCons "detail" Js.arrNil Js.objNil)) = false :=
  ⟨rfl, rfl⟩

/-- C6 (amended): `parseError` returns `user_message` when truthy, else the
stringified `detail` when truthy, else the fixed default; the result is a
non-empty string provided a truthy `user_message` is a non-empty string
value and a truthy `detail` stringifies to a non-empty string — in
particular for a null/undefined body or a body missing every expected
field. -/
theorem parseError_nonempty (data : Js)
    (hum : (data.get "user_message").truthy = true →
      ∃ s, data.get "user_message" = Js.str s ∧ s ≠ "")
    (hdet : (data.get "detail").truthy = true →
      (data.get "detail").toStr ≠ "") :
    Js.isNonEmptyStr (parseError data) = true := by
  unfold parseError
  by_cases h1 : (data.get "user_message").truthy = true
  · rw [if_pos h1]
    obtain ⟨s, hs, hne⟩ := hum h1
    rw [hs]
    simpa [Js.isNonEmptyStr] using hne
  · rw [if_neg h1]
    by_cases h2 : (data.get "detail").truthy = true
    · rw [if_pos h2]
      simpa [Js.isNonEmptyStr] using hdet h2
    · rw [if_neg h2]
      simp [Js.isNonEmptyStr]

/-- C6 witness: the amended theorem applied to the `null` body, whose two
hypotheses hold vacuously. -/
theorem parseError_nonempty_witness :
    Js.isNonEmptyStr (parseError Js.null) = true :=
  parseError_nonempty Js.null
    (fun h => absurd h (by simp [Js.get, Js.truthy]))
    (fun h => absurd h (by simp [Js.get, Js.truthy]))

/-- C9: for every input that is absent or whose MIME type is not
`application/pdf`, `handleFile` performs no network request and leaves the
component state unchanged; conversely a request is only ever issued for a
file whose MIME type is `application/pdf`. -/
theorem handleFile_only_pdf (s : UploadState) (file : Option JsFile) :
    ((file = none ∨ ∃ f, file = some f ∧ f.type ≠ "application/pdf") →
      handleFile s file = (s, false))
    ∧ ((handleFile s file).snd = true →
      ∃ f, file = some f ∧ f.type = "application/pdf") := by
  constructor
  · rintro (hnone | ⟨f, hf, hty⟩)
    · subst hnone; rfl
    · subst hf
      have h1 : (f.type != "application/pdf") = true := by
        simpa [bne_iff_ne] using hty
      simp [handleFile, h1]
  · intro hreq
    cases file with
    | none => simp [handleFile] at hreq
    | some f =>
      refine ⟨f, rfl, ?_⟩
      by_cases hty : f.type = "application/pdf"
      · exact hty
      · have h1 : (f.type != "application/pdf") = true := by
          simpa [bne_iff_ne] using hty
        simp [handleFile, h1] at hreq

/-- C9 witness: a `text/plain` file is rejected with no request and no state
change. -/
theorem handleFile_only_pdf_witness :
    handleFile ⟨false, false, none⟩ (some ⟨"text/plain"⟩) =
      (⟨false, false, none⟩, false) :=
  (handleFile_only_pdf ⟨false, false, none⟩ (some ⟨"text/plain"⟩)).1
    (Or.inr ⟨⟨"text/plain"⟩, rfl, by decide⟩)

theorem paired_append_pair (m : List ChatMsg) (q ans : String)
    (cits : List Citation) (h : paired m = true) :
    paired (m ++ [userMsg q, { role := "assistant", content := ans, citations := cits }])
      = true := by
  induction m using paired.induct with
  | case1 => simp [paired, userMsg]
  | case2 x => simp [paired] at h
  | case3 u a rest ih =>
    simp only [paired, Bool.and_eq_true] at h
    simp only [List.cons_append, paired, Bool.and_eq_true]
    exact ⟨h.1, ih h.2⟩

theorem orderly_step (s : ChatState) (e : ChatEvent) (h : orderly s) :
    orderly (chatStep s e) := by
  cases e with
  | setInput t =>
    by_cases hl : s.loading = true
    · simpa [chatStep, hl] using h
    · simp only [chatStep, if_neg hl]
      rcases h with ⟨h1, h2, h3⟩ | ⟨q, m, h1, h2, h3, h4⟩
      · exact Or.inl ⟨h1, h2, h3⟩
      · exact Or.inr ⟨q, m, h1, h2, h3, h4⟩
  | send =>
    show orderly (handleSendStart s)
    unfold handleSendStart
    by_cases hg : (jsTrim s.input == "" || !chatIdTruthy s.chatId || s.loading) = true
    · rw [if_pos hg]; exact h
    · rw [if_neg hg]
      have hl : s.loading = false := by
        have hfalse : (jsTrim s.input == "" || !chatIdTruthy s.chatId || s.loading)
            = false := Bool.eq_false_iff.mpr hg
        simp only [Bool.or_eq_false_iff] at hfalse
        exact hfalse.2
      rcases h with ⟨h1, h2, h3⟩ | ⟨q, m, h1, h2, h3, h4⟩
      · exact Or.inr ⟨s.input, s.messages, rfl, rfl, h3, rfl⟩
      · rw [h1] at hl; cases hl
  | resolve r =>
    by_cases hp : s.pending.isSome = true
    · simp only [chatStep, if_pos hp]
      rcases h with ⟨h1, h2, h3⟩ | ⟨q, m, h1, h2, h3, h4⟩
      · rw [h2] at hp; simp at hp
      · cases r with
        | ok ans cits =>
          refine Or.inl ⟨rfl, rfl, ?_⟩
          show paired (s.messages ++ [_]) = true
          rw [h4, List.append_assoc]
          exact paired_append_pair m q ans cits h3
        | httpError body =>
          refine Or.inl ⟨rfl, rfl, ?_⟩
          show paired s.messages.dropLast = true
          rw [h4, List.dropLast_concat]
          exact h3
        | networkError =>
          refine Or.inl ⟨rfl, rfl, ?_⟩
          show paired s.messages.dropLast = true
          rw [h4, List.dropLast_concat]
          exact h3
    · simp only [chatStep, if_neg hp]
      exact h

theorem orderly_run (s : ChatState) (es : List ChatEvent) (h : orderly s) :
    orderly (runChat s es) := by
  induction es generalizing s with
  | nil => exact h
  | cons e rest ih =>
    show orderly (runChat (chatStep s e) rest)
    exact ih _ (orderly_step s e h)

/-- C7: within one conversation the chat UI allows at most one in-flight ask
request — `handleSend` returns without effect while a request is loading,
the send control is disabled while loading — and consequently, along every
client trace from a fresh chat, the history is complete user/assistant
pairs in issue order, with at most the single pending question trailing:
each assistant answer is appended before the next question can be sent. -/
theorem chat_one_inflight_ordered :
    (∀ s : ChatState, s.loading = true → handleSendStart s = s)
    ∧ (∀ i : String, sendDisabled i true = true)
    ∧ (∀ (id : String) (es : List ChatEvent), orderly (runChat (initChatState id) es)) := by
  refine ⟨fun s hl => ?_, fun i => ?_, fun id es => ?_⟩
  · unfold handleSendStart
    rw [if_pos]
    rw [hl]
    simp
  · simp [sendDisabled]
  · exact orderly_run _ es (Or.inl ⟨rfl, rfl, rfl⟩)

/-- C7 witness: a send pressed while a request is loading leaves the state
unchanged. -/
theorem chat_one_inflight_ordered_witness :
    handleSendStart
      { chatId := some "c1", input := "next question", messages := [],
        loading := true, error := none, pending := some "q" } =
      { chatId := some "c1", input := "next question", messages := [],
        loading := true, error := none, pending := some "q" } :=
  chat_one_inflight_ordered.1
    { chatId := some "c1", input := "next question", messages := [],
      loading := true, error := none, pending := some "q" } rfl

/-- C8: the ask path is atomic with respect to the displayed history — when
the request fails (non-ok HTTP response or network failure), the
optimistically appended user message is removed so `messages` equals its
value before the send, no assistant message is added, an error is set, and
`loading` is cleared. -/
theorem handleSend_failure_atomic (s : ChatState) (r : AskResponse)
    (hguard : (jsTrim s.input == "" || !chatIdTruthy s.chatId || s.loading) = false)
    (hfail : (∃ b, r = .httpError b) ∨ r = .networkError) :
    (handleSendResolve (handleSendStart s) r).messages = s.messages
    ∧ (handleSendResolve (handleSendStart s) r).error.isSome = true
    ∧ (handleSendResolve (handleSendStart s) r).loading = false := by
  have hstart : handleSendStart s =
      { s with
          error := none
          messages := s.messages ++ [userMsg s.input]
          input := ""
          loading := true
          pending := some s.input } := by
    unfold handleSendStart
    rw [if_neg]
    simp [hguard]
  rcases hfail with ⟨b, hb⟩ | hn
  · subst hb
    rw [hstart]
    exact ⟨List.dropLast_concat, rfl, rfl⟩
  · subst hn
    rw [hstart]
    exact ⟨List.dropLast_concat, rfl, rfl⟩

/-- C8 witness: a network failure after a valid send restores the history to
its pre-send value, sets an error and clears loading. -/
theorem handleSend_failure_atomic_witness :
    (handleSendResolve (handleSendStart
        { chatId := some "c1", input := "How often?", messages := [],
          loading := false, error := none, pending := none })
      AskResponse.networkError).messages = []
    ∧ (handleSendResolve (handleSendStart
        { chatId := some "c1", input := "How often?", messages := [],
          loading := false, error := none, pending := none })
      AskResponse.networkError).error.isSome = true
    ∧ (handleSendResolve (handleSendStart
        { chatId := some "c1", input := "How often?", messages := [],
          loading := false, error := none, pending := none })
      AskResponse.networkError).loading = false :=
  handleSend_failure_atomic
    { chatId := some "c1", input := "How often?", messages := [],
      loading := false, error := none, pending := none }
    AskResponse.networkError rfl (Or.inr rfl)

theorem filter_map_key (h : Nat) (cs : List Chunk) :
    ((cs.map (fun c => (h, c))).filter (fun e => e.fst == h)).map Prod.snd = cs := by
  induction cs with
  | nil => rfl
  | cons c rest ih => simp [List.filter_cons, ih]

theorem chunksOf_freshStore (st : Store) (h : Nat) (pages : List (List Char))
    (cs : List Chunk) :
    (freshStore st h pages cs).chunksOf h = st.chunksOf h ++ cs := by
  show ((st.index ++ cs.map (fun c => (h, c))).filter
      (fun e => e.fst == h)).map Prod.snd = _
  rw [List.filter_append, List.map_append, filter_map_key]
  rfl

theorem lookup_setDoc (docs : List (Nat × DocMeta)) (h : Nat) (d : DocMeta) :
    (setDoc docs h d).lookup h = some d := by
  unfold setDoc
  induction docs with
  | nil => simp [List.lookup]
  | cons e rest ih =>
    obtain ⟨k, v⟩ := e
    by_cases hk : k = h
    · simpa [List.filter_cons, hk] using ih
    · have h1 : (k != h) = true := by simpa [bne_iff_ne] using hk
      have h2 : (h == k) = false := by
        simp only [beq_eq_false_iff_ne, ne_eq]
        exact fun hh => hk hh.symm
      simpa [List.filter_cons, h1, List.lookup, h2] using ih

theorem chunksFor_ne_nil (pages : List (List Char))
    (hne : pages.flatten ≠ []) : chunksFor pages ≠ [] := by
  unfold chunksFor
  intro hmap
  have hl : pages.flatten.length ≠ 0 := fun h0 => hne (List.length_eq_zero.mp h0)
  have hn : nChunks pages.flatten.length ≠ 0 := by
    unfold nChunks
    rw [if_neg hl]
    exact Nat.succ_ne_zero _
  have hlen := congrArg List.length hmap
  rw [List.length_map, List.length_range, List.length_nil] at hlen
  exact hn hlen

theorem noopResult_freshStore (st : Store) (h : Nat) (pages : List (List Char))
    (cs : List Chunk) (hnil : st.chunksOf h = []) :
    noopResult (freshStore st h pages cs) h = freshResult h pages cs := by
  unfold noopResult freshResult
  have h1 : (freshStore st h pages cs).docs.lookup h
      = some { hashVal := h, pageCount := pages.length } := lookup_setDoc _ _ _
  have h2 : (freshStore st h pages cs).chunksOf h = cs := by
    rw [chunksOf_freshStore, hnil, List.nil_append]
  rw [h1, h2]

/-- C2: ingestion is idempotent -- when a first ingestion of some bytes
succeeds with store `st1` and result `r1`, ingesting the same bytes again
returns the very same store (so no duplicate vector-index entries are
written) and the very same result (same document identity, page count,
chunk count and greeting), and raises no error. -/
theorem ingest_idempotent (st : Store) (bytes : List Nat) (st1 : Store)
    (r1 : IngestResult) (h : ingest st bytes = .ok (st1, r1)) :
    ingest st1 bytes = .ok (st1, r1) := by
  by_cases hempty : (st.chunksOf (contentHash bytes)).isEmpty = true
  · by_cases hws : ((extractPagesChars bytes).flatten.all Char.isWhitespace) = true
    · simp [ingest, hempty, hws] at h
    · simp only [ingest, hempty, if_true, hws, Bool.false_eq_true, if_false,
        Except.ok.injEq, Prod.mk.injEq] at h
      obtain ⟨hst, hr⟩ := h
      subst hst
      subst hr
      have hnil : st.chunksOf (contentHash bytes) = [] :=
        List.isEmpty_iff.mp hempty
      have hcs : (freshStore st (contentHash bytes) (extractPagesChars bytes)
          (chunksFor (extractPagesChars bytes))).chunksOf (contentHash bytes)
          = chunksFor (extractPagesChars bytes) := by
        rw [chunksOf_freshStore, hnil, List.nil_append]
      have hne : (extractPagesChars bytes).flatten ≠ [] := by
        intro h0
        rw [h0] at hws
        exact hws rfl
      have hcne := chunksFor_ne_nil _ hne
      have hnonempty : ((freshStore st (contentHash bytes) (extractPagesChars bytes)
          (chunksFor (extractPagesChars bytes))).chunksOf
            (contentHash bytes)).isEmpty = false := by
        rw [hcs]
        cases hcf : chunksFor (extractPagesChars bytes) with
        | nil => exact absurd hcf hcne
        | cons a l => rfl
      simp only [ingest, hnonempty, Bool.false_eq_true, if_false,
        Except.ok.injEq, Prod.mk.injEq]
      exact ⟨trivial, noopResult_freshStore st _ _ _ hnil⟩
  · have hempty2 : (st.chunksOf (contentHash bytes)).isEmpty = false :=
      Bool.eq_false_iff.mpr hempty
    simp only [ingest, hempty2, Bool.false_eq_true, if_false,
      Except.ok.injEq, Prod.mk.injEq] at h
    obtain ⟨hst, hr⟩ := h
    subst hst
    subst hr
    simp only [ingest, hempty2, Bool.false_eq_true, if_false]

/-- C2 witness: ingesting a small two-page document into the empty store and
then ingesting the same bytes again returns the same store and result. -/
theorem ingest_idempotent_witness :
    ingest
      { docs := [(32207342129, { hashVal := 32207342129, pageCount := 2 })]
        index := [(32207342129, { id := 0, text := "abc", page := 1 })] }
      [97, 98, 0, 99]
    = .ok
      ({ docs := [(32207342129, { hashVal := 32207342129, pageCount := 2 })]
         index := [(32207342129, { id := 0, text := "abc", page := 1 })] },
       { document_id := 32207342129, page_count := 2, chunk_count := 1,
         greeting_text := ingestGreeting }) :=
  ingest_idempotent { docs := [], index := [] } [97, 98, 0, 99]
    { docs := [(32207342129, { hashVal := 32207342129, pageCount := 2 })]
      index := [(32207342129, { id := 0, text := "abc", page := 1 })] }
    { document_id := 32207342129, page_count := 2, chunk_count := 1,
      greeting_text := ingestGreeting }
    rfl

/-- C5: a successful ingestion returns a record with exactly the fields
`document_id`, `page_count`, `chunk_count` and `greeting_text`; moreover the
document identity is the content hash of the bytes and the reported chunk
count is the number of chunks indexed under that document's namespace in
the resulting store. -/
theorem ingest_result_fields (st : Store) (bytes : List Nat) (st1 : Store)
    (r : IngestResult) (h : ingest st bytes = .ok (st1, r)) :
    r = { document_id := r.document_id, page_count := r.page_count,
          chunk_count := r.chunk_count, greeting_text := r.greeting_text }
    ∧ r.document_id = contentHash bytes
    ∧ r.chunk_count = (st1.chunksOf (contentHash bytes)).length := by
  refine ⟨rfl, ?_⟩
  by_cases hempty : (st.chunksOf (contentHash bytes)).isEmpty = true
  · by_cases hws : ((extractPagesChars bytes).flatten.all Char.isWhitespace) = true
    · simp [ingest, hempty, hws] at h
    · simp only [ingest, hempty, if_true, hws, Bool.false_eq_true, if_false,
        Except.ok.injEq, Prod.mk.injEq] at h
      obtain ⟨hst, hr⟩ := h
      subst hst
      subst hr
      refine ⟨rfl, ?_⟩
      have hnil : st.chunksOf (contentHash bytes) = [] :=
        List.isEmpty_iff.mp hempty
      show (chunksFor (extractPagesChars bytes)).length = _
      rw [chunksOf_freshStore, hnil, List.nil_append]
  · have hempty2 : (st.chunksOf (contentHash bytes)).isEmpty = false :=
      Bool.eq_false_iff.mpr hempty
    simp only [ingest, hempty2, Bool.false_eq_true, if_false,
      Except.ok.injEq, Prod.mk.injEq] at h
    obtain ⟨hst, hr⟩ := h
    subst hst
    subst hr
    exact ⟨rfl, rfl⟩

/-- C5 witness: the fields of the result of ingesting a small two-page
document into the empty store. -/
theorem ingest_result_fields_witness :
    ({ document_id := 32207342129, page_count := 2, chunk_count := 1,
       greeting_text := ingestGreeting } : IngestResult)
    = { document_id := 32207342129, page_count := 2, chunk_count := 1,
        greeting_text := ingestGreeting }
    ∧ (32207342129 : Nat) = contentHash [97, 98, 0, 99]
    ∧ (1 : Nat) = (Store.chunksOf
        { docs := [(32207342129, { hashVal := 32207342129, pageCount := 2 })]
          index := [(32207342129, { id := 0, text := "abc", page := 1 })] }
        (contentHash [97, 98, 0, 99])).length :=
  ingest_result_fields { docs := [], index := [] } [97, 98, 0, 99]
    { docs := [(32207342129, { hashVal := 32207342129, pageCount := 2 })]
      index := [(32207342129, { id := 0, text := "abc", page := 1 })] }
    { document_id := 32207342129, page_count := 2, chunk_count := 1,
      greeting_text := ingestGreeting }
    rfl

theorem mem_insertRanked (score : Chunk → Nat) (c x : Chunk) (l : List Chunk)
    (h : x ∈ insertRanked score c l) : x = c ∨ x ∈ l := by
  induction l with
  | nil =>
    simp only [insertRanked, List.mem_singleton] at h
    exact Or.inl h
  | cons y ys ih =>
    unfold insertRanked at h
    by_cases hcmp : score y ≤ score c
    · rw [if_pos hcmp] at h
      rcases List.mem_cons.mp h with h1 | h2
      · exact Or.inl h1
      · exact Or.inr h2
    · rw [if_neg hcmp] at h
      rcases List.mem_cons.mp h with h1 | h2
      · subst h1
        exact Or.inr (List.mem_cons_self _ _)
      · rcases ih h2 with h3 | h4
        · exact Or.inl h3
        · exact Or.inr (List.mem_cons_of_mem _ h4)

theorem mem_rankChunks (score : Chunk → Nat) (l : List Chunk) (x : Chunk)
    (h : x ∈ rankChunks score l) : x ∈ l := by
  induction l with
  | nil => simp [rankChunks] at h
  | cons y ys ih =>
    unfold rankChunks at h
    rcases mem_insertRanked score y x _ h with h1 | h2
    · subst h1
      exact List.mem_cons_self _ _
    · exact List.mem_cons_of_mem _ (ih h2)

theorem mem_semanticQuery (oracle : Oracle) (chunks : List Chunk)
    (variant : String) (x : Chunk) (h : x ∈ semanticQuery oracle chunks variant) :
    x ∈ chunks :=
  mem_rankChunks _ _ _ (List.mem_of_mem_take h)

theorem mem_dedupByIdAux (seen : List Nat) (l : List Chunk) (x : Chunk)
    (h : x ∈ dedupByIdAux seen l) : x ∈ l := by
  induction l generalizing seen with
  | nil => simp [dedupByIdAux] at h
  | cons c rest ih =>
    unfold dedupByIdAux at h
    by_cases hs : (seen.contains c.id) = true
    · rw [if_pos hs] at h
      exact List.mem_cons_of_mem _ (ih seen h)
    · rw [if_neg hs] at h
      rcases List.mem_cons.mp h with h1 | h2
      · subst h1
        exact List.mem_cons_self _ _
      · exact List.mem_cons_of_mem _ (ih _ h2)

theorem mem_dedupById (l : List Chunk) (x : Chunk) (h : x ∈ dedupById l) :
    x ∈ l :=
  mem_dedupByIdAux [] l x h

theorem mem_retrieveCandidates (oracle : Oracle) (chunks : List Chunk)
    (question : String) (x : Chunk)
    (h : x ∈ retrieveCandidates oracle chunks question) : x ∈ chunks := by
  unfold retrieveCandidates mergeCandidates at h
  have h1 := mem_dedupById _ _ (List.mem_of_mem_take h)
  rcases List.mem_append.mp h1 with h2 | h3
  · obtain ⟨l, hl, hx⟩ := List.mem_flatten.mp h2
    obtain ⟨v, hv, hlv⟩ := List.mem_map.mp hl
    subst hlv
    exact mem_semanticQuery oracle chunks v x hx
  · exact List.mem_of_mem_filter h3

theorem startsWithChars_iff (n h : List Char) :
    startsWithChars n h = true ↔ ∃ t, n ++ t = h := by
  induction n generalizing h with
  | nil => simp [startsWithChars]
  | cons a as ih =>
    cases h with
    | nil =>
      constructor
      · intro hf
        simp [startsWithChars] at hf
      · rintro ⟨t, ht⟩
        simp at ht
    | cons b bs =>
      simp only [startsWithChars, Bool.and_eq_true, beq_iff_eq, ih]
      constructor
      · rintro ⟨hab, t, ht⟩
        exact ⟨t, by rw [List.cons_append, hab, ht]⟩
      · rintro ⟨t, ht⟩
        rw [List.cons_append] at ht
        injection ht with h1 h2
        exact ⟨h1, t, h2⟩

theorem subChars_iff (n hay : List Char) :
    subChars n hay = true ↔ n <:+: hay := by
  induction hay with
  | nil =>
    simp only [subChars, List.isEmpty_iff]
    constructor
    · intro h
      subst h
      exact ⟨[], [], rfl⟩
    · rintro ⟨s, t, hst⟩
      simp [List.append_eq_nil] at hst
      exact hst.2.1
  | cons b bs ih =>
    simp only [subChars, Bool.or_eq_true, startsWithChars_iff, ih]
    constructor
    · rintro (⟨t, ht⟩ | h2)
      · exact ⟨[], t, by simpa using ht⟩
      · obtain ⟨s, t, hst⟩ := h2
        exact ⟨b :: s, t, by rw [← hst]; simp⟩
    · rintro ⟨s, t, hst⟩
      cases s with
      | nil =>
        left
        exact ⟨t, by simpa using hst⟩
      | cons x xs =>
        right
        rw [List.cons_append, List.cons_append] at hst
        injection hst with h1 h2
        exact ⟨xs, t, h2⟩

theorem synthesize_ok_shape (oracle : Oracle) (candidates : List Chunk)
    (history : List (String × String)) (question : String) (r : AskResult)
    (h : synthesize oracle candidates history question = .ok r) :
    r.is_greeting = false
    ∧ ∀ c ∈ r.citations, ∃ ch ∈ candidates, containsSub ch.text c.text = true := by
  simp only [synthesize] at h
  cases h1 : oracle.llm (buildPrompt candidates history question) with
  | answer t cits =>
    rw [h1] at h
    simp only [Except.ok.injEq] at h
    subst h
    refine ⟨rfl, fun c hc => ?_⟩
    unfold validateCitations at hc
    obtain ⟨hin, hpred⟩ := List.mem_filter.mp hc
    obtain ⟨ch, hch, hsub⟩ := List.any_eq_true.mp hpred
    exact ⟨ch, hch, hsub⟩
  | malformed =>
    rw [h1] at h
    cases h2 : oracle.llm (buildPrompt candidates history question ++ strictReminder) with
    | answer t cits =>
      rw [h2] at h
      simp only [Except.ok.injEq] at h
      subst h
      refine ⟨rfl, fun c hc => ?_⟩
      unfold validateCitations at hc
      obtain ⟨hin, hpred⟩ := List.mem_filter.mp hc
      obtain ⟨ch, hch, hsub⟩ := List.any_eq_true.mp hpred
      exact ⟨ch, hch, hsub⟩
    | malformed =>
      rw [h2] at h
      cases h

/-- C1: the grounding and scoping invariant — for every oracle (however the
embedding scores and however the language model behaves), every citation of
a successful answer has a text that is an exact substring of the text of
some chunk belonging to the queried document's namespace; in particular a
question against one document never returns a citation grounded in another
document's chunks. -/
theorem ask_citations_grounded (oracle : Oracle) (st : Store) (docId : Nat)
    (question : String) (history : List (String × String)) (r : AskResult)
    (n : Nat) (h : ask oracle st docId question history = .ok (r, n)) :
    ∀ c ∈ r.citations, ∃ ch ∈ st.chunksOf docId,
      c.text.toList <:+: ch.text.toList := by
  unfold ask at h
  by_cases hg : isGreeting question = true
  · rw [if_pos hg] at h
    simp only [Except.ok.injEq, Prod.mk.injEq] at h
    obtain ⟨hr, -⟩ := h
    subst hr
    intro c hc
    simp at hc
  · rw [if_neg hg] at h
    by_cases hce : (retrieveCandidates oracle (st.chunksOf docId) question).isEmpty
        = true
    · rw [if_pos hce] at h
      cases h
    · rw [if_neg hce] at h
      cases hs : synthesize oracle
          (retrieveCandidates oracle (st.chunksOf docId) question)
          history question with
      | ok r2 =>
        rw [hs] at h
        simp only [Except.ok.injEq, Prod.mk.injEq] at h
        obtain ⟨hr, -⟩ := h
        subst hr
        obtain ⟨-, hcit⟩ := synthesize_ok_shape _ _ _ _ _ hs
        intro c hcm
        obtain ⟨ch, hch, hsub⟩ := hcit c hcm
        exact ⟨ch, mem_retrieveCandidates oracle _ question ch hch,
          (subChars_iff _ _).mp hsub⟩
      | error e =>
        rw [hs] at h
        cases h

/-- A concrete store holding one ingested two-page document, used by the
witnesses below (it is the store produced by ingesting the bytes
`[97, 98, 0, 99]` into the empty store). -/
def storeW : Store :=
  { docs := [(32207342129, { hashVal := 32207342129, pageCount := 2 })]
    index := [(32207342129, { id := 0, text := "abc", page := 1 })] }

/-- A concrete oracle for the witnesses below: the similarity score is the
chunk length, and the language model always answers with one citation that
is a verbatim excerpt and one fabricated citation. -/
def oracleW : Oracle :=
  { score := fun _ c => c.length
    llm := fun _ => .answer "The answer."
      [{ text := "ab", page := 1, sectionLabel := none },
       { text := "zz", page := 2, sectionLabel := some "s" }] }

/-- C1 witness: on the concrete store and oracle, the surviving citation
`"ab"` is an exact substring of the document's chunk `"abc"` (the fabricated
citation `"zz"` was dropped by the validator). -/
theorem ask_citations_grounded_witness :
    ∃ ch ∈ storeW.chunksOf 32207342129, ("ab".toList <:+: ch.text.toList) :=
  ask_citations_grounded oracleW storeW 32207342129 "what dosage abcd" []
    { answer_text := "The answer."
      citations := [{ text := "ab", page := 1, sectionLabel := none }]
      is_greeting := false } 2 rfl
    { text := "ab", page := 1, sectionLabel := none } (by simp)

/-- C3: a question classified as a greeting returns `is_greeting = true`
with an empty citation list, and no vector-index query is issued (the query
counter of the result is zero). -/
theorem ask_greeting_short_circuit (oracle : Oracle) (st : Store) (docId : Nat)
    (question : String) (history : List (String × String))
    (h : isGreeting question = true) :
    ask oracle st docId question history =
      .ok ({ answer_text := greetingReply, citations := [], is_greeting := true }, 0) := by
  unfold ask
  rw [if_pos h]

/-- C3 witness: the question `"hello"` is classified as a greeting and
short-circuits. -/
theorem ask_greeting_short_circuit_witness :
    ask oracleW storeW 32207342129 "hello" [] =
      .ok ({ answer_text := greetingReply, citations := [], is_greeting := true }, 0) :=
  ask_greeting_short_circuit oracleW storeW 32207342129 "hello" [] rfl

/-- C4: a successful `ask` returns a record with exactly the fields
`answer_text`, `citations` and `is_greeting`, each citation a record with
exactly the fields `text`, `page` and the optional `section`; moreover the
`is_greeting` flag equals the greeting classification of the question. -/
theorem ask_result_fields (oracle : Oracle) (st : Store) (docId : Nat)
    (question : String) (history : List (String × String)) (r : AskResult)
    (n : Nat) (h : ask oracle st docId question history = .ok (r, n)) :
    r = { answer_text := r.answer_text, citations := r.citations,
          is_greeting := r.is_greeting }
    ∧ (∀ c ∈ r.citations,
        c = { text := c.text, page := c.page, sectionLabel := c.sectionLabel })
    ∧ r.is_greeting = isGreeting question := by
  refine ⟨rfl, fun c _ => rfl, ?_⟩
  unfold ask at h
  by_cases hg : isGreeting question = true
  · rw [if_pos hg] at h
    simp only [Except.ok.injEq, Prod.mk.injEq] at h
    obtain ⟨hr, -⟩ := h
    subst hr
    exact hg.symm
  · rw [if_neg hg] at h
    by_cases hce : (retrieveCandidates oracle (st.chunksOf docId) question).isEmpty
        = true
    · rw [if_pos hce] at h
      cases h
    · rw [if_neg hce] at h
      cases hs : synthesize oracle
          (retrieveCandidates oracle (st.chunksOf docId) question)
          history question with
      | ok r2 =>
        rw [hs] at h
        simp only [Except.ok.injEq, Prod.mk.injEq] at h
        obtain ⟨hr, -⟩ := h
        subst hr
        rw [(synthesize_ok_shape _ _ _ _ _ hs).1]
        exact (Bool.eq_false_iff.mpr hg).symm
      | error e =>
        rw [hs] at h
        cases h

/-- C4 witness: on the concrete store and oracle, the non-greeting question
produces a result whose `is_greeting` flag equals the classifier's
verdict. -/
theorem ask_result_fields_witness :
    ({ answer_text := "The answer."
       citations := [{ text := "ab", page := 1, sectionLabel := none }]
       is_greeting := false } : AskResult).is_greeting
      = isGreeting "what dosage abcd" :=
  (ask_result_fields oracleW storeW 32207342129 "what dosage abcd" []
    { answer_text := "The answer."
      citations := [{ text := "ab", page := 1, sectionLabel := none }]
      is_greeting := false } 2 rfl).2.2

end MedAI
